import Mathlib

/-!
# Verification of the vault_exporter StatsD ingest pipeline

A shallow embedding of the line parser and event dispatcher of
`exporter.go` (package `main` of kubevault/vault_exporter).

Modelling conventions:

* Go strings are modelled as `List Char`, i.e. as sequences of Unicode
  scalar values ("runes").  Go's `for i, c := range s` iterates runes, and
  every string handled here is checked (or assumed) to be valid UTF-8, so
  the rune-level view coincides with the byte-level one on all inputs the
  model can express.  `utf8.ValidString` is therefore constantly true in
  the model.
* Go `float64` values are modelled as exact rationals `ℚ`.  The model's
  `parseFloat` implements the plain decimal fragment of Go's
  `strconv.ParseFloat` (optional sign, integer/fraction digits, optional
  decimal exponent); hex floats, `inf`/`nan` spellings, digit-group
  underscores, and overflow-to-infinity are outside the model.  On a
  syntax error Go's `ParseFloat` returns the value `0` together with the
  error; the model mirrors this where the caller uses the value.
* Prometheus counter updates are modelled as explicit data: each counter
  family is a list of appended labels (so "increment twice" is a
  two-element list), collected in `Stats` / `HandleResult`.
-/

namespace VaultExporter

/-- Go strings, viewed as rune sequences. -/
abbrev Str := List Char

/-- Convert a Lean string literal to the rune-sequence model. -/
def strL (s : String) : Str := s.toList

/-- The digit test `'0' <= c && c <= '9'` used on `metricName[0]` in
`escapeMetricName`. -/
def isDigitChar (c : Char) : Bool :=
  decide ('0' ≤ c) && decide (c ≤ '9')

/-- The valid-character test of `escapeMetricName`:
`(c >= 'a' && c <= 'z') || (c >= 'A' && c <= 'Z') || (c >= '0' && c <= '9') || c == '_'`. -/
def isValidMetricChar (c : Char) : Bool :=
  (decide ('a' ≤ c) && decide (c ≤ 'z')) ||
  (decide ('A' ≤ c) && decide (c ≤ 'Z')) ||
  (decide ('0' ≤ c) && decide (c ≤ '9')) ||
  (c == '_')

/-- Whether a name starts with an ASCII digit (`metricName[0] >= '0' && <= '9'`;
the first byte of a multibyte rune is never an ASCII digit, so the byte-level
and rune-level tests agree). -/
def headIsDigit : Str → Bool
  | [] => false
  | c :: _ => isDigitChar c

/-- The per-rune replacement performed by the escape loop: valid runes are
kept, any other rune becomes one `'_'`. -/
def escapeChar (c : Char) : Char :=
  if isValidMetricChar c then c else '_'

/-- The character loop of `escapeMetricName`.  `sb` is the `strings.Builder`
content, `pending` is the not-yet-copied slice `metricName[offset:i]` of
valid runes, `escaped` is the `escaped` flag.  On reaching the end of the
string, the Go code returns `metricName` unchanged when `escaped` is still
false (in that case `sb` is empty and `pending` is the whole input), and
otherwise flushes the tail `metricName[offset:]`. -/
def escapeLoop (sb pending : Str) (escaped : Bool) : Str → Str
  | [] => if escaped then sb ++ pending else pending
  | c :: rest =>
    if isValidMetricChar c then
      escapeLoop sb (pending ++ [c]) escaped rest
    else
      escapeLoop (sb ++ pending ++ ['_']) [] true rest

/-- Model of `escapeMetricName` from exporter.go: replace invalid runes in the metric
name with `'_'`; valid characters are `a-z`, `A-Z`, `0-9` and `_`; a name
starting with a digit gets one `'_'` prepended. -/
def escapeMetricName (metricName : Str) : Str :=
  if metricName = [] then []
  else if headIsDigit metricName then escapeLoop ['_'] [] true metricName
  else escapeLoop [] [] false metricName

theorem escapeLoop_eq (rest : Str) : ∀ (sb pending : Str) (escaped : Bool),
    escapeLoop sb pending escaped rest =
      if escaped = true ∨ rest.any (fun c => !(isValidMetricChar c)) = true then
        sb ++ pending ++ rest.map escapeChar
      else pending ++ rest := by
  induction rest with
  | nil =>
    intro sb pending escaped
    cases escaped <;> simp [escapeLoop]
  | cons c rest ih =>
    intro sb pending escaped
    by_cases hc : isValidMetricChar c = true
    · have hstep : escapeChar c = c := by simp [escapeChar, hc]
      simp only [escapeLoop, hc, if_true, ih, List.any_cons, hc, Bool.not_true,
        Bool.false_or, List.map_cons, hstep]
      by_cases he : escaped = true ∨ rest.any (fun c => !(isValidMetricChar c)) = true
      · simp [he, List.append_assoc]
      · simp [he, List.append_assoc]
    · have hc' : isValidMetricChar c = false := by
        cases h : isValidMetricChar c
        · rfl
        · exact absurd h hc
      have hstep : escapeChar c = '_' := by simp [escapeChar, hc']
      simp only [escapeLoop, hc', Bool.false_eq_true, if_false, ih, List.any_cons,
        Bool.not_false, Bool.true_or, List.map_cons, hstep]
      simp [List.append_assoc]

theorem map_escapeChar_of_valid : ∀ (n : Str), (∀ c ∈ n, isValidMetricChar c = true) →
    n.map escapeChar = n := by
  intro n h
  induction n with
  | nil => rfl
  | cons c rest ih =>
    have hc : isValidMetricChar c = true := h c (by simp)
    simp [escapeChar, hc, ih fun d hd => h d (by simp [hd])]

/-- Characterization of `escapeMetricName`: a digit-leading name gets one
underscore prepended, and every rune is sent through `escapeChar`. -/
theorem escapeMetricName_eq (n : Str) :
    escapeMetricName n =
      (if headIsDigit n then ['_'] else []) ++ n.map escapeChar := by
  by_cases hnil : n = []
  · subst hnil; simp [escapeMetricName, headIsDigit]
  · by_cases hd : headIsDigit n = true
    · simp only [escapeMetricName, hnil, if_false, hd, if_true]
      rw [escapeLoop_eq]
      simp
    · have hd' : headIsDigit n = false := by
        cases h : headIsDigit n
        · rfl
        · exact absurd h hd
      simp only [escapeMetricName, hnil, if_false, hd', Bool.false_eq_true, if_false]
      rw [escapeLoop_eq]
      by_cases hinv : n.any (fun c => !(isValidMetricChar c)) = true
      · simp [hinv]
      · have hall : ∀ c ∈ n, isValidMetricChar c = true := by
          intro c hc
          by_contra hcc
          exact hinv (List.any_eq_true.mpr ⟨c, hc, by simp [hcc]⟩)
        simp [hinv, map_escapeChar_of_valid n hall]

theorem headIsDigit_cons (c : Char) (t : Str) : headIsDigit (c :: t) = isDigitChar c := rfl

theorem escapeChar_valid (c : Char) : isValidMetricChar (escapeChar c) = true := by
  by_cases h : isValidMetricChar c = true
  · simp [escapeChar, h]
  · simp only [escapeChar, h, Bool.false_eq_true, if_false]
    decide

/-- C1: `escapeMetricName` produces only characters in `[A-Za-z0-9_]`;
every invalid rune of the input is replaced by exactly one `'_'` (and a
leading digit gets a single `'_'` prepended), which is expressed by the
per-rune characterization; and a name made only of valid characters that
does not start with a digit is returned unchanged. -/
theorem escape_charset_c1 (n : Str) :
    (∀ c ∈ escapeMetricName n, isValidMetricChar c = true) ∧
    escapeMetricName n = (if headIsDigit n then ['_'] else []) ++ n.map escapeChar ∧
    ((∀ c ∈ n, isValidMetricChar c = true) → headIsDigit n = false →
      escapeMetricName n = n) := by
  refine ⟨?_, escapeMetricName_eq n, ?_⟩
  · intro c hc
    rw [escapeMetricName_eq] at hc
    rcases List.mem_append.mp hc with h | h
    · by_cases hd : headIsDigit n = true
      · simp only [hd, if_true, List.mem_singleton] at h
        subst h; decide
      · simp [hd] at h
    · obtain ⟨d, _, rfl⟩ := List.mem_map.mp h
      exact escapeChar_valid d
  · intro hall hd
    rw [escapeMetricName_eq, hd]
    simp [map_escapeChar_of_valid n hall]

theorem escape_charset_c1_witness :
    escapeMetricName (strL "9a.b") = strL "_9a_b" ∧
    escapeMetricName (strL "ab_c") = strL "ab_c" := by
  constructor
  · exact ((escape_charset_c1 (strL "9a.b")).2.1).trans (by decide)
  · exact (escape_charset_c1 (strL "ab_c")).2.2 (by decide) (by decide)

/-- C2: `escapeMetricName` is idempotent. -/
theorem escape_idempotent_c2 (n : Str) :
    escapeMetricName (escapeMetricName n) = escapeMetricName n := by
  have hvalid : ∀ c ∈ escapeMetricName n, isValidMetricChar c = true := by
    intro c hc
    rw [escapeMetricName_eq] at hc
    rcases List.mem_append.mp hc with h | h
    · by_cases hd : headIsDigit n = true
      · simp only [hd, if_true, List.mem_singleton] at h
        subst h; decide
      · simp [hd] at h
    · obtain ⟨d, _, rfl⟩ := List.mem_map.mp h
      exact escapeChar_valid d
  have hhd : headIsDigit (escapeMetricName n) = false := by
    rw [escapeMetricName_eq]
    by_cases hd : headIsDigit n = true
    · simp only [hd, if_true, List.cons_append, headIsDigit_cons]
      decide
    · have hd' : headIsDigit n = false := by
        cases h : headIsDigit n
        · rfl
        · exact absurd h hd
      cases n with
      | nil => simp [headIsDigit]
      | cons c t =>
        simp only [hd', Bool.false_eq_true, if_false, List.nil_append, List.map_cons,
          headIsDigit_cons]
        have hc : isDigitChar c = false := by simpa [headIsDigit_cons] using hd'
        by_cases hv : isValidMetricChar c = true
        · simpa [escapeChar, hv] using hc
        · simp only [escapeChar, hv, Bool.false_eq_true, if_false]
          decide
  rw [escapeMetricName_eq (escapeMetricName n), hhd]
  simp [map_escapeChar_of_valid _ hvalid]

/-! ## String helpers (Go `strings` package operations, rune-level) -/

/-- Model of `strings.Split(s, sep)` for a one-rune separator: splitting the empty
string yields `[[]]`, like Go's `[""]`. -/
def splitOnAux (sep : Char) : Str → Str → List Str
  | [], acc => [acc.reverse]
  | c :: rest, acc =>
    if c = sep then acc.reverse :: splitOnAux sep rest []
    else splitOnAux sep rest (c :: acc)

def splitOn (sep : Char) (s : Str) : List Str := splitOnAux sep s []

/-- Model of `strings.SplitN(s, sep, 2)`: `none` models the one-element result
`[s]` (no separator, so `len(elements) < 2`), and `some (a, b)` models the
two-element result obtained by splitting at the first separator. -/
def splitN2 (sep : Char) (s : Str) : Option (Str × Str) :=
  let before := s.takeWhile fun c => !(c == sep)
  if before.length = s.length then none
  else some (before, s.drop (before.length + 1))

/-- Whether the first list is an initial segment of the second
(Go `strings.HasPrefix`). -/
def startsWithSeq : Str → Str → Bool
  | [], _ => true
  | _ :: _, [] => false
  | p :: ps, c :: cs => (p == c) && startsWithSeq ps cs

/-- Model of `strings.Contains(hay, needle)`. -/
def containsSeq (needle : Str) : Str → Bool
  | [] => startsWithSeq needle []
  | c :: rest => startsWithSeq needle (c :: rest) || containsSeq needle rest

/-! ## Value parsing (`strconv.ParseFloat`, decimal fragment, exact ℚ) -/

def digitsVal (ds : Str) : Nat :=
  ds.foldl (fun acc c => acc * 10 + (c.toNat - '0'.toNat)) 0

def parseExp (mant : ℚ) (r : Str) : Option ℚ :=
  let p : Bool × Str :=
    if r.headD ' ' = '+' then (false, r.tail)
    else if r.headD ' ' = '-' then (true, r.tail)
    else (false, r)
  let ed := p.2.takeWhile fun c => isDigitChar c
  if ed.length = 0 ∨ ed.length ≠ p.2.length then none
  else some (if p.1 then mant / (10 : ℚ) ^ digitsVal ed else mant * (10 : ℚ) ^ digitsVal ed)

/-- The decimal fragment of Go's `strconv.ParseFloat`: optional sign,
digits with an optional fraction part, optional decimal exponent.  The
result is the exact rational value (Go rounds it to the nearest
`float64`).  Hex floats, `inf`/`nan` spellings, digit-group underscores
and overflow are not modelled and come out as `none`. -/
def parseFloat (s : Str) : Option ℚ :=
  let sp : ℚ × Str :=
    if s.headD ' ' = '+' then (1, s.tail)
    else if s.headD ' ' = '-' then (-1, s.tail)
    else (1, s)
  let ip := sp.2.takeWhile fun c => isDigitChar c
  let s2 := sp.2.drop ip.length
  let fr : Str × Str :=
    if s2.headD ' ' = '.' then
      (s2.tail.takeWhile fun c => isDigitChar c,
       s2.tail.drop ((s2.tail.takeWhile fun c => isDigitChar c).length))
    else ([], s2)
  if ip.length = 0 ∧ fr.1.length = 0 then none
  else
    let mant : ℚ := sp.1 * ((digitsVal ip : ℚ) + (digitsVal fr.1 : ℚ) / (10 : ℚ) ^ fr.1.length)
    if fr.2 = [] then some mant
    else if fr.2.headD ' ' = 'e' ∨ fr.2.headD ' ' = 'E' then parseExp mant fr.2.tail
    else none

/-- Go's `int(x)` conversion for a finite float: truncation toward zero. -/
def truncInt (q : ℚ) : Int :=
  if 0 ≤ q then ⌊q⌋ else ⌈q⌉

/-! ## Events, labels and counters -/

/-- Go `map[string]string` as an insertion-ordered association list with
replace-on-duplicate-key. -/
abbrev Labels := List (Str × Str)

def labelsInsert (k v : Str) (ls : Labels) : Labels :=
  if ls.any fun p => p.1 == k then
    ls.map fun p => if p.1 == k then (k, v) else p
  else ls ++ [(k, v)]

/-- The `Event` variants `CounterEvent`, `GaugeEvent`, `TimerEvent`. -/
inductive Event where
  | counter (metricName : Str) (value : ℚ) (labels : Labels)
  | gauge (metricName : Str) (value : ℚ) (relative : Bool) (labels : Labels)
  | timer (metricName : Str) (value : ℚ) (labels : Labels)
deriving DecidableEq, Repr

def Event.metricName : Event → Str
  | .counter n _ _ => n
  | .gauge n _ _ _ => n
  | .timer n _ _ => n

def Event.labels : Event → Labels
  | .counter _ _ l => l
  | .gauge _ _ _ l => l
  | .timer _ _ l => l

/-- The categorized `sample_errors{reason}` labels used by `lineToEvents`. -/
inductive SampleErrorReason where
  | malformedLine
  | malformedComponent
  | malformedValue
  | invalidSampleFactor
  | mixedTaggingStyles
  | illegalEvent
deriving DecidableEq, Repr

/-- The operational counters touched while parsing one line:
`samples_received`, `sample_errors{reason}` (in increment order),
`tags_received` and `tag_errors`. -/
structure Stats where
  samplesReceived : Nat
  sampleErrors : List SampleErrorReason
  tagsReceived : Nat
  tagErrors : Nat
deriving DecidableEq, Repr

def Stats.empty : Stats := ⟨0, [], 0, 0⟩

def Stats.addError (st : Stats) (r : SampleErrorReason) : Stats :=
  ⟨st.samplesReceived, st.sampleErrors ++ [r], st.tagsReceived, st.tagErrors⟩

def Stats.incSamples (st : Stats) : Stats :=
  ⟨st.samplesReceived + 1, st.sampleErrors, st.tagsReceived, st.tagErrors⟩

def Stats.incTags (st : Stats) : Stats :=
  ⟨st.samplesReceived, st.sampleErrors, st.tagsReceived + 1, st.tagErrors⟩

def Stats.incTagErrors (st : Stats) : Stats :=
  ⟨st.samplesReceived, st.sampleErrors, st.tagsReceived, st.tagErrors + 1⟩

/-! ## Tag parsing -/

/-- Model of `buildEvent` from exporter.go; `"s"` (StatsD sets) and unknown type
codes are errors (`none`). -/
def buildEvent (statType metric : Str) (value : ℚ) (relative : Bool) (labels : Labels) :
    Option Event :=
  if statType = strL "c" then some (.counter metric value labels)
  else if statType = strL "g" then some (.gauge metric value relative labels)
  else if statType = strL "ms" ∨ statType = strL "h" ∨ statType = strL "d" then
    some (.timer metric value labels)
  else none

/-- Model of `parseTag` from exporter.go: split `tag` at the first `separator` into
key and value; an empty tag, a missing separator, or an empty key or value
increments `tag_errors`; otherwise the escaped key maps to the raw value. -/
def parseTag (tag : Str) (separator : Char) (labels : Labels) (st : Stats) :
    Labels × Stats :=
  if tag = [] then (labels, st.incTagErrors)
  else
    let k := tag.takeWhile fun c => !(c == separator)
    if k.length = tag.length then (labels, st.incTagErrors)
    else
      let v := tag.drop (k.length + 1)
      if k = [] ∨ v = [] then (labels, st.incTagErrors)
      else (labelsInsert (escapeMetricName k) v labels, st)

/-- The comma-splitting loop shared by `parseNameTags` and
`parseDogStatsDTags`: every `','` ends a tag, and a final empty segment
(for a trailing `','` or an empty component) is not treated as a tag. -/
def tagsOfComponent (component : Str) : List Str :=
  let parts := splitOn ',' component
  match parts.getLast? with
  | some [] => parts.dropLast
  | _ => parts

/-- Model of `parseNameTags` from exporter.go: Librato/InfluxDB name tags with `'='`
as key/value separator. -/
def parseNameTags (component : Str) (labels : Labels) (st : Stats) : Labels × Stats :=
  (tagsOfComponent component).foldl
    (fun p tag => parseTag tag '=' p.1 p.2) (labels, st)

def trimLeftHash (s : Str) : Str :=
  if s.headD ' ' = '#' then s.tail else s

/-- Model of `parseDogStatsDTags` from exporter.go: DogStatsD tags with an optional
leading `'#'` per tag and `':'` as key/value separator. -/
def parseDogStatsDTags (component : Str) (labels : Labels) (st : Stats) : Labels × Stats :=
  (tagsOfComponent component).foldl
    (fun p tag => parseTag (trimLeftHash tag) ':' p.1 p.2) (labels, st)

/-- Model of `parseNameAndTags` from exporter.go: the first `'#'` or `','` in the
name section starts the inline tag block; the metric name is what precedes
it. -/
def parseNameAndTags (name : Str) (labels : Labels) (st : Stats) : Str × Labels × Stats :=
  let metricPart := name.takeWhile fun c => !(c == '#') && !(c == ',')
  if metricPart.length = name.length then (name, labels, st)
  else
    let p := parseNameTags (name.drop (metricPart.length + 1)) labels st
    (metricPart, p.1, p.2)

/-! ## Sample processing (`lineToEvents`) -/

/-- Model of `utf8.ValidString` — constantly true at the rune level, where a
string is by construction a sequence of Unicode scalar values. -/
def utf8ValidString (_ : Str) : Bool := true

/-- Whether the value string starts with `'+'` or `'-'`
(`strings.Index(valueStr, "+") == 0 || strings.Index(valueStr, "-") == 0`),
which marks a relative gauge. -/
def relativeOf (valueStr : Str) : Bool :=
  (valueStr.headD ' ' == '+') || (valueStr.headD ' ' == '-')

/-- The mutable locals of the suffix-component loop of `lineToEvents`:
`value`, `multiplyEvents`, `samplingFactor`, the shared `labels` map and
the counters. -/
structure SuffixState where
  value : ℚ
  multiplyEvents : Int
  samplingFactor : ℚ
  labels : Labels
  stats : Stats
deriving DecidableEq, Repr

/-- One iteration of the `for _, component := range components[2:]` loop of
`lineToEvents`.  For `'@'`: Go's `ParseFloat` yields `0` plus an error on a
malformed factor, and the error only increments `invalid_sample_factor` —
the loop is NOT aborted; a zero factor is then clamped to `1`; for type
`g` the factor is ignored, for `c` the value is divided by it, and for
`ms`/`h`/`d` the repetition count becomes `int(1/f)`.  For `'#'`:
DogStatsD tags are parsed into the shared labels map.  Any other leading
byte increments `invalid_sample_factor` and skips the component.  (The
empty component is filtered out by the caller before this loop runs.) -/
def processSuffix (statType : Str) (s : SuffixState) (component : Str) : SuffixState :=
  if component.headD ' ' = '@' then
    let pf := parseFloat component.tail
    let st1 := if pf = none then s.stats.addError .invalidSampleFactor else s.stats
    let sf0 : ℚ := pf.getD 0
    let sf := if sf0 = 0 then 1 else sf0
    if statType = strL "g" then
      ⟨s.value, s.multiplyEvents, sf, s.labels, st1⟩
    else if statType = strL "c" then
      ⟨s.value / sf, s.multiplyEvents, sf, s.labels, st1⟩
    else if statType = strL "ms" ∨ statType = strL "h" ∨ statType = strL "d" then
      ⟨s.value, truncInt (1 / sf), sf, s.labels, st1⟩
    else
      ⟨s.value, s.multiplyEvents, sf, s.labels, st1⟩
  else if component.headD ' ' = '#' then
    let p := parseDogStatsDTags component.tail s.labels s.stats
    ⟨s.value, s.multiplyEvents, s.samplingFactor, p.1, p.2⟩
  else
    ⟨s.value, s.multiplyEvents, s.samplingFactor, s.labels,
      s.stats.addError .invalidSampleFactor⟩

/-- The `for i := 0; i < multiplyEvents; i++` emission loop: each iteration
builds one event; a build error (set or unknown type) increments
`illegal_event` for that iteration. -/
def emitEvents (statType metric : Str) (value : ℚ) (relative : Bool) (labels : Labels) :
    Nat → Stats → List Event × Stats
  | 0, st => ([], st)
  | n + 1, st =>
    match buildEvent statType metric value relative labels with
    | some e =>
      let p := emitEvents statType metric value relative labels n st
      (e :: p.1, p.2)
    | none => emitEvents statType metric value relative labels n (st.addError .illegalEvent)

/-- The body of the `samples:` loop of `lineToEvents` for one sample. -/
def processSample (metric : Str) (labels : Labels) (st : Stats) (sample : Str) :
    Labels × List Event × Stats :=
  let st := st.incSamples
  match splitOn '|' sample with
  | valueStr :: statType :: suffixes =>
    if suffixes.length > 2 then (labels, [], st.addError .malformedComponent)
    else
      match parseFloat valueStr with
      | none => (labels, [], st.addError .malformedValue)
      | some value =>
        if suffixes.any fun c => c.isEmpty then
          (labels, [], st.addError .malformedComponent)
        else
          let s1 := suffixes.foldl (processSuffix statType) ⟨value, 1, 1, labels, st⟩
          let st1 := if s1.labels = [] then s1.stats else s1.stats.incTags
          let p := emitEvents statType metric s1.value (relativeOf valueStr) s1.labels
                     s1.multiplyEvents.toNat st1
          (s1.labels, p.1, p.2)
  | _ => (labels, [], st.addError .malformedComponent)

/-- The `samples:` loop over all samples of a line; the labels map is
shared across iterations, and events are emitted in sample order. -/
def processSamples (metric : Str) : List Str → Labels → Stats → List Event × Stats
  | [], _, st => ([], st)
  | sample :: rest, labels, st =>
    let p := processSample metric labels st sample
    let q := processSamples metric rest p.1 p.2.2
    (p.2.1 ++ q.1, q.2)

/-- Sample selection of `lineToEvents`: the presence of `"|#"` (DogStatsD
tags) disables multi-metric splitting on `':'`. -/
def samplesFor (rest : Str) : List Str :=
  if containsSeq (strL "|#") rest then [rest] else splitOn ':' rest

/-- The line-level rejection test of `lineToEvents`:
`len(elements) < 2 || len(elements[0]) == 0 || !utf8.ValidString(line)`. -/
def malformedLineCond (line : Str) : Bool :=
  match splitN2 ':' line with
  | none => true
  | some p => p.1.isEmpty || !(utf8ValidString line)

/-- Model of `lineToEvents` from exporter.go: turn one raw StatsD line into an
ordered list of events plus counter increments.  An empty line is ignored
silently; a line without `':'`, with an empty name, or with invalid UTF-8
is a `malformed_line`; a line mixing name-tags with DogStatsD `"|#"` tags
is a `mixed_tagging_styles`; otherwise every `':'`-separated sample (or
the single DogStatsD sample) is processed in order. -/
def lineToEvents (line : Str) : List Event × Stats :=
  if line = [] then ([], Stats.empty)
  else
    match splitN2 ':' line with
    | none => ([], Stats.empty.addError .malformedLine)
    | some (nameAndTags, rest) =>
      if nameAndTags = [] ∨ utf8ValidString line = false then
        ([], Stats.empty.addError .malformedLine)
      else
        let t := parseNameAndTags nameAndTags [] Stats.empty
        if containsSeq (strL "|#") rest ∧ t.2.1 ≠ [] then
          ([], t.2.2.addError .mixedTaggingStyles)
        else
          processSamples t.1 (samplesFor rest) t.2.1 t.2.2

/-- Model of `StatsDUDPListener.handlePacket` (and the identical unixgram variant):
a datagram is split on `'\n'` and each line goes through `lineToEvents`
and is queued as one batch. -/
def handlePacket (packet : Str) : List (List Event × Stats) :=
  (splitOn '\n' packet).map lineToEvents

/-! ## Which error counters each stage can touch -/

theorem parseTag_sampleErrors (tag : Str) (sep : Char) (labels : Labels) (st : Stats) :
    ((parseTag tag sep labels st).2).sampleErrors = st.sampleErrors := by
  simp only [parseTag]
  split_ifs <;> rfl

theorem foldl_tags_sampleErrors (g : Labels × Stats → Str → Labels × Stats)
    (hg : ∀ p tag, ((g p tag).2).sampleErrors = p.2.sampleErrors) :
    ∀ (tags : List Str) (p : Labels × Stats),
      ((tags.foldl g p).2).sampleErrors = p.2.sampleErrors := by
  intro tags
  induction tags with
  | nil => intro p; rfl
  | cons t ts ih => intro p; rw [List.foldl_cons, ih, hg]

theorem parseNameTags_sampleErrors (component : Str) (labels : Labels) (st : Stats) :
    ((parseNameTags component labels st).2).sampleErrors = st.sampleErrors := by
  unfold parseNameTags
  exact foldl_tags_sampleErrors _ (fun p tag => parseTag_sampleErrors tag '=' p.1 p.2) _ _

theorem parseDogStatsDTags_sampleErrors (component : Str) (labels : Labels) (st : Stats) :
    ((parseDogStatsDTags component labels st).2).sampleErrors = st.sampleErrors := by
  unfold parseDogStatsDTags
  exact foldl_tags_sampleErrors _
    (fun p tag => parseTag_sampleErrors (trimLeftHash tag) ':' p.1 p.2) _ _

theorem parseNameAndTags_sampleErrors (name : Str) (labels : Labels) (st : Stats) :
    ((parseNameAndTags name labels st).2.2).sampleErrors = st.sampleErrors := by
  simp only [parseNameAndTags]
  split_ifs
  · rfl
  · exact parseNameTags_sampleErrors _ _ _

theorem processSuffix_no_malformedLine (statType : Str) (s : SuffixState) (comp : Str)
    (h : SampleErrorReason.malformedLine ∈ (processSuffix statType s comp).stats.sampleErrors) :
    SampleErrorReason.malformedLine ∈ s.stats.sampleErrors := by
  simp only [processSuffix] at h
  split_ifs at h <;>
    (dsimp only at h
     first
       | exact h
       | simpa [Stats.addError] using h
       | rwa [parseDogStatsDTags_sampleErrors] at h)

theorem foldl_processSuffix_no_malformedLine (statType : Str) :
    ∀ (comps : List Str) (s : SuffixState),
    SampleErrorReason.malformedLine ∈
      (comps.foldl (processSuffix statType) s).stats.sampleErrors →
    SampleErrorReason.malformedLine ∈ s.stats.sampleErrors := by
  intro comps
  induction comps with
  | nil => intro s h; exact h
  | cons c cs ih =>
    intro s h
    rw [List.foldl_cons] at h
    exact processSuffix_no_malformedLine statType s c (ih _ h)

theorem emitEvents_no_malformedLine (statType metric : Str) (value : ℚ) (relative : Bool)
    (labels : Labels) :
    ∀ (n : Nat) (st : Stats),
    SampleErrorReason.malformedLine ∈
      (emitEvents statType metric value relative labels n st).2.sampleErrors →
    SampleErrorReason.malformedLine ∈ st.sampleErrors := by
  intro n
  induction n with
  | zero => intro st h; exact h
  | succ n ih =>
    intro st h
    unfold emitEvents at h
    cases hb : buildEvent statType metric value relative labels with
    | some e =>
      rw [hb] at h
      exact ih st h
    | none =>
      rw [hb] at h
      have h' := ih _ h
      simpa [Stats.addError] using h'

theorem processSample_no_malformedLine (metric : Str) (labels : Labels) (st : Stats)
    (sample : Str)
    (h : SampleErrorReason.malformedLine ∈
      (processSample metric labels st sample).2.2.sampleErrors) :
    SampleErrorReason.malformedLine ∈ st.sampleErrors := by
  have hsr : (st.incSamples).sampleErrors = st.sampleErrors := rfl
  simp only [processSample] at h
  rcases hsp : splitOn '|' sample with _ | ⟨valueStr, _ | ⟨statType, suffixes⟩⟩ <;>
    (rw [hsp] at h; dsimp only at h)
  · simpa [Stats.addError] using h
  · simpa [Stats.addError] using h
  · by_cases h1 : suffixes.length > 2
    · rw [if_pos h1] at h
      simpa [Stats.addError] using h
    · rw [if_neg h1] at h
      cases hpf : parseFloat valueStr with
      | none =>
        rw [hpf] at h
        dsimp only at h
        simpa [Stats.addError] using h
      | some value =>
        rw [hpf] at h
        dsimp only at h
        by_cases h2 : suffixes.any (fun c => c.isEmpty) = true
        · rw [if_pos h2] at h
          simpa [Stats.addError] using h
        · rw [if_neg h2] at h
          have h3 := emitEvents_no_malformedLine _ _ _ _ _ _ _ h
          have h4 : SampleErrorReason.malformedLine ∈
              (suffixes.foldl (processSuffix statType)
                ⟨value, 1, 1, labels, st.incSamples⟩).stats.sampleErrors := by
            split_ifs at h3
            · exact h3
            · exact h3
          have h5 := foldl_processSuffix_no_malformedLine statType suffixes _ h4
          rwa [hsr] at h5

theorem processSamples_no_malformedLine (metric : Str) :
    ∀ (samples : List Str) (labels : Labels) (st : Stats),
    SampleErrorReason.malformedLine ∈
      (processSamples metric samples labels st).2.sampleErrors →
    SampleErrorReason.malformedLine ∈ st.sampleErrors := by
  intro samples
  induction samples with
  | nil => intro labels st h; exact h
  | cons sample rest ih =>
    intro labels st h
    simp only [processSamples] at h
    exact processSample_no_malformedLine _ _ _ _ (ih _ _ h)

/-- Forward direction of line rejection: a non-empty line satisfying the
malformed-line test is rejected with exactly one `malformed_line` error and
zero events. -/
theorem lineToEvents_malformedCase (line : Str) (h1 : line ≠ [])
    (h2 : malformedLineCond line = true) :
    lineToEvents line = ([], Stats.empty.addError .malformedLine) := by
  unfold lineToEvents
  rw [if_neg h1]
  unfold malformedLineCond at h2
  cases hsp : splitN2 ':' line with
  | none => rfl
  | some p =>
    rw [hsp] at h2
    obtain ⟨a, b⟩ := p
    simp only [utf8ValidString, Bool.not_true, Bool.or_false] at h2
    have ha : a = [] := by
      cases a
      · rfl
      · simp [List.isEmpty] at h2
    subst ha
    simp [utf8ValidString]

/-- Backward direction: a line that passes the malformed-line test never
increments the `malformed_line` counter. -/
theorem lineToEvents_not_malformed (line : Str)
    (h2 : malformedLineCond line = false) :
    SampleErrorReason.malformedLine ∉ (lineToEvents line).2.sampleErrors := by
  intro hmem
  by_cases h1 : line = []
  · rw [h1] at hmem
    simp [lineToEvents, Stats.empty] at hmem
  · unfold lineToEvents at hmem
    rw [if_neg h1] at hmem
    unfold malformedLineCond at h2
    cases hsp : splitN2 ':' line with
    | none => rw [hsp] at h2; exact absurd h2 (by simp)
    | some p =>
      rw [hsp] at h2
      obtain ⟨a, b⟩ := p
      rw [hsp] at hmem
      dsimp only at hmem
      simp only [utf8ValidString, Bool.not_true, Bool.or_false] at h2
      have ha : a ≠ [] := by
        intro hnil
        rw [hnil] at h2
        simp [List.isEmpty] at h2
      rw [if_neg (by simp [utf8ValidString, ha])] at hmem
      have hbase : ((parseNameAndTags a [] Stats.empty).2.2).sampleErrors = [] :=
        parseNameAndTags_sampleErrors a [] Stats.empty
      by_cases hmix : containsSeq (strL "|#") b = true ∧
          (parseNameAndTags a [] Stats.empty).2.1 ≠ []
      · rw [if_pos hmix] at hmem
        have : SampleErrorReason.malformedLine ∈
            ((parseNameAndTags a [] Stats.empty).2.2.addError .mixedTaggingStyles).sampleErrors :=
          hmem
        rw [Stats.addError] at this
        simp [hbase] at this
      · rw [if_neg hmix] at hmem
        have := processSamples_no_malformedLine _ _ _ _ hmem
        rw [hbase] at this
        simp at this

/-- C3: `lineToEvents` is total — for every input line it returns an
ordered (possibly empty) list of events and the counter increments, never
failing; and a line rejected by the malformed-line test (the parser's
line-level validation, for non-empty lines) yields zero events and exactly
one categorized `malformed_line` error. -/
theorem parser_total_c3 (line : Str) :
    ∃ evs st, lineToEvents line = (evs, st) ∧
      (line ≠ [] → malformedLineCond line = true →
        evs = [] ∧ st.sampleErrors = [.malformedLine]) := by
  refine ⟨(lineToEvents line).1, (lineToEvents line).2, by simp, ?_⟩
  intro h1 h2
  have h := lineToEvents_malformedCase line h1 h2
  constructor
  · rw [h]
  · rw [h]
    rfl

theorem parser_total_c3_witness :
    (lineToEvents (strL "nocolon")).1 = [] ∧
    (lineToEvents (strL "nocolon")).2.sampleErrors = [.malformedLine] := by
  obtain ⟨evs, st, heq, himp⟩ := parser_total_c3 (strL "nocolon")
  obtain ⟨h1, h2⟩ := himp (by decide) (by decide)
  constructor
  · rw [heq]; exact h1
  · rw [heq]; exact h2

/-- C7 counterexample: the empty line has fewer than two colon-separated
parts (and an empty name part), so the claimed biconditional says it must
be rejected with a `malformed_line` error; but `lineToEvents` returns it
with zero events and NO error counter incremented. -/
theorem malformed_line_c7_counterexample :
    malformedLineCond [] = true ∧
    lineToEvents [] = ([], Stats.empty) ∧
    Stats.empty.sampleErrors = [] := by
  refine ⟨by decide, by decide, rfl⟩

/-- C7 (amended): a NON-EMPTY line is rejected with reason
`malformed_line` (zero events, one `malformed_line` error) exactly when it
has fewer than two colon-separated parts, an empty name part, or invalid
UTF-8 (`malformedLineCond`; in the rune-level model every string is valid
UTF-8, so the last disjunct never fires); an empty line is ignored without
touching any counter. -/
theorem malformed_line_c7 (line : Str) (h1 : line ≠ []) :
    (malformedLineCond line = true →
      lineToEvents line = ([], Stats.empty.addError .malformedLine)) ∧
    (malformedLineCond line = false →
      SampleErrorReason.malformedLine ∉ (lineToEvents line).2.sampleErrors) :=
  ⟨lineToEvents_malformedCase line h1, fun h2 => lineToEvents_not_malformed line h2⟩

theorem malformed_line_c7_witness :
    lineToEvents (strL ":5|c") = ([], Stats.empty.addError .malformedLine) ∧
    SampleErrorReason.malformedLine ∉ (lineToEvents (strL "x:y")).2.sampleErrors := by
  constructor
  · exact (malformed_line_c7 (strL ":5|c") (by decide)).1 (by decide)
  · exact (malformed_line_c7 (strL "x:y") (by decide)).2 (by decide)

/-- C10: the empty input line produces zero events and increments no error
counter at all (even though it has fewer than two colon-separated parts),
so the empty line that `handlePacket` produces when a packet ends in
`'\n'` is silently ignored rather than counted as an error. -/
theorem empty_line_c10 :
    lineToEvents [] = ([], Stats.empty) ∧
    Stats.empty.sampleErrors = [] ∧
    splitOn '\n' (strL "foo:1|c\n") = [strL "foo:1|c", []] ∧
    handlePacket (strL "foo:1|c\n") = [lineToEvents (strL "foo:1|c"), ([], Stats.empty)] := by
  refine ⟨by decide, rfl, by decide, ?_⟩
  rw [handlePacket]
  rw [show splitOn '\n' (strL "foo:1|c\n") = [strL "foo:1|c", []] from by decide]
  rw [List.map_cons, List.map_cons, List.map_nil]
  rw [show lineToEvents [] = ([], Stats.empty) from by decide]

/-- C6: when a name-tag was successfully extracted from the name section
(the labels map is non-empty) and the remainder of the line contains the
substring `"|#"`, the whole line is dropped with a single
`mixed_tagging_styles` error and zero events; and whenever `"|#"` is
present, multi-metric splitting on `':'` is disabled — the remainder is
the single sample. -/
theorem mixed_tagging_c6 (line nameAndTags rest : Str)
    (hsp : splitN2 ':' line = some (nameAndTags, rest))
    (hname : nameAndTags ≠ [])
    (hlabels : (parseNameAndTags nameAndTags [] Stats.empty).2.1 ≠ [])
    (hdog : containsSeq (strL "|#") rest = true) :
    lineToEvents line =
      ([], (parseNameAndTags nameAndTags [] Stats.empty).2.2.addError .mixedTaggingStyles) ∧
    (∀ r : Str, containsSeq (strL "|#") r = true → samplesFor r = [r]) := by
  constructor
  · have hline : line ≠ [] := by
      intro h
      rw [h, show splitN2 ':' ([] : Str) = none from by decide] at hsp
      exact Option.noConfusion hsp
    unfold lineToEvents
    rw [if_neg hline, hsp]
    dsimp only
    rw [if_neg (by simp [utf8ValidString, hname])]
    rw [if_pos ⟨hdog, hlabels⟩]
  · intro r hr
    unfold samplesFor
    rw [if_pos hr]

theorem mixed_tagging_c6_witness :
    lineToEvents (strL "my.metric,host=a:5|c|#env:prod") =
      ([], ⟨0, [.mixedTaggingStyles], 0, 0⟩) ∧
    samplesFor (strL "5|c|#env:prod") = [strL "5|c|#env:prod"] := by
  have h := mixed_tagging_c6 (strL "my.metric,host=a:5|c|#env:prod")
    (strL "my.metric,host=a") (strL "5|c|#env:prod")
    (by decide) (by decide) (by decide) (by decide)
  exact ⟨h.1.trans (by decide), h.2 (strL "5|c|#env:prod") (by decide)⟩

theorem emitEvents_replicate (statType metric : Str) (value : ℚ) (relative : Bool)
    (labels : Labels) (e : Event)
    (hb : buildEvent statType metric value relative labels = some e) :
    ∀ (n : Nat) (st : Stats),
    emitEvents statType metric value relative labels n st = (List.replicate n e, st) := by
  intro n
  induction n with
  | zero => intro st; rfl
  | succ n ih =>
    intro st
    unfold emitEvents
    rw [hb, ih]
    simp [List.replicate_succ]

/-- The successful-parse branch of the sample loop, written out: once the
component count is in range, the value parses and no suffix component is
empty, the sample is the suffix fold followed by the emission loop. -/
theorem processSample_eq (metric : Str) (labels : Labels) (st : Stats) (sample : Str)
    (valueStr statType : Str) (suffixes : List Str)
    (hsp : splitOn '|' sample = valueStr :: statType :: suffixes)
    (hlen : ¬ suffixes.length > 2)
    (v : ℚ) (hv : parseFloat valueStr = some v)
    (hne : suffixes.any (fun c => c.isEmpty) = false) :
    processSample metric labels st sample =
      ((suffixes.foldl (processSuffix statType) ⟨v, 1, 1, labels, st.incSamples⟩).labels,
        (emitEvents statType metric
          (suffixes.foldl (processSuffix statType) ⟨v, 1, 1, labels, st.incSamples⟩).value
          (relativeOf valueStr)
          (suffixes.foldl (processSuffix statType) ⟨v, 1, 1, labels, st.incSamples⟩).labels
          (suffixes.foldl (processSuffix statType) ⟨v, 1, 1, labels, st.incSamples⟩).multiplyEvents.toNat
          (if (suffixes.foldl (processSuffix statType) ⟨v, 1, 1, labels, st.incSamples⟩).labels = []
           then (suffixes.foldl (processSuffix statType) ⟨v, 1, 1, labels, st.incSamples⟩).stats
           else (suffixes.foldl (processSuffix statType) ⟨v, 1, 1, labels, st.incSamples⟩).stats.incTags)).1,
        (emitEvents statType metric
          (suffixes.foldl (processSuffix statType) ⟨v, 1, 1, labels, st.incSamples⟩).value
          (relativeOf valueStr)
          (suffixes.foldl (processSuffix statType) ⟨v, 1, 1, labels, st.incSamples⟩).labels
          (suffixes.foldl (processSuffix statType) ⟨v, 1, 1, labels, st.incSamples⟩).multiplyEvents.toNat
          (if (suffixes.foldl (processSuffix statType) ⟨v, 1, 1, labels, st.incSamples⟩).labels = []
           then (suffixes.foldl (processSuffix statType) ⟨v, 1, 1, labels, st.incSamples⟩).stats
           else (suffixes.foldl (processSuffix statType) ⟨v, 1, 1, labels, st.incSamples⟩).stats.incTags)).2) := by
  simp only [processSample, hsp]
  rw [if_neg hlen, hv, hne]
  simp only [Bool.false_eq_true, if_false]

/-- The `'@'` suffix component with a successfully parsed factor. -/
theorem processSuffix_factor (statType fStr : Str) (s : SuffixState) (f : ℚ)
    (hf : parseFloat fStr = some f) :
    processSuffix statType s ('@' :: fStr) =
      (if statType = strL "g" then
        ⟨s.value, s.multiplyEvents, if f = 0 then 1 else f, s.labels, s.stats⟩
      else if statType = strL "c" then
        ⟨s.value / (if f = 0 then 1 else f), s.multiplyEvents,
          if f = 0 then 1 else f, s.labels, s.stats⟩
      else if statType = strL "ms" ∨ statType = strL "h" ∨ statType = strL "d" then
        ⟨s.value, truncInt (1 / (if f = 0 then 1 else f)),
          if f = 0 then 1 else f, s.labels, s.stats⟩
      else
        ⟨s.value, s.multiplyEvents, if f = 0 then 1 else f, s.labels, s.stats⟩) := by
  simp only [processSuffix, List.headD_cons, List.tail_cons, hf, Option.getD_some]
  simp

/-- The `'@'` suffix component with an unparseable factor: Go's
`ParseFloat` hands back `0` with the error, the error only increments
`invalid_sample_factor`, and the zero factor is then clamped to `1`. -/
theorem processSuffix_factor_err (statType fStr : Str) (s : SuffixState)
    (hf : parseFloat fStr = none) :
    processSuffix statType s ('@' :: fStr) =
      (if statType = strL "g" then
        ⟨s.value, s.multiplyEvents, 1, s.labels, s.stats.addError .invalidSampleFactor⟩
      else if statType = strL "c" then
        ⟨s.value / 1, s.multiplyEvents, 1, s.labels, s.stats.addError .invalidSampleFactor⟩
      else if statType = strL "ms" ∨ statType = strL "h" ∨ statType = strL "d" then
        ⟨s.value, truncInt (1 / 1), 1, s.labels, s.stats.addError .invalidSampleFactor⟩
      else
        ⟨s.value, s.multiplyEvents, 1, s.labels, s.stats.addError .invalidSampleFactor⟩) := by
  simp only [processSuffix, List.headD_cons, List.tail_cons, hf, Option.getD_none]
  simp

/-- C5: for a sample `value|type|@f` with parsed value `v` and parsed
factor `f`: a zero `f` is clamped to `1`; for type `c` the emitted value
is `v` divided by the (clamped) factor; for the timer types `ms`, `h`,
`d` the event is emitted `⌊1/f⌋` times (for a positive factor); for type
`g` the factor is ignored — value unchanged, one event. -/
theorem sampling_factor_c5 (metric : Str) (labels : Labels) (st : Stats) (sample : Str)
    (valueStr statType fStr : Str) (v f : ℚ)
    (hsp : splitOn '|' sample = [valueStr, statType, '@' :: fStr])
    (hv : parseFloat valueStr = some v)
    (hf : parseFloat fStr = some f) :
    (statType = strL "c" →
      (processSample metric labels st sample).2.1 =
        [.counter metric (v / (if f = 0 then 1 else f)) labels]) ∧
    (statType = strL "g" →
      (processSample metric labels st sample).2.1 =
        [.gauge metric v (relativeOf valueStr) labels]) ∧
    ((statType = strL "ms" ∨ statType = strL "h" ∨ statType = strL "d") →
      0 < (if f = 0 then 1 else f) →
      (processSample metric labels st sample).2.1 =
        List.replicate (⌊1 / (if f = 0 then 1 else f)⌋).toNat (.timer metric v labels)) := by
  have hrw := processSample_eq metric labels st sample valueStr statType [('@' :: fStr)]
    hsp (by simp) v hv (by simp)
  refine ⟨?_, ?_, ?_⟩
  · intro hst
    subst hst
    rw [hrw]
    simp only [List.foldl_cons, List.foldl_nil]
    rw [processSuffix_factor _ _ _ _ hf]
    have hb : buildEvent (['c'] : Str) metric (v / (if f = 0 then 1 else f)) (relativeOf valueStr)
        labels = some (.counter metric (v / (if f = 0 then 1 else f)) labels) := rfl
    simp [strL, emitEvents_replicate _ _ _ _ _ _ hb]
  · intro hst
    subst hst
    rw [hrw]
    simp only [List.foldl_cons, List.foldl_nil]
    rw [processSuffix_factor _ _ _ _ hf]
    have hb : buildEvent (['g'] : Str) metric v (relativeOf valueStr) labels =
        some (.gauge metric v (relativeOf valueStr) labels) := rfl
    simp [strL, emitEvents_replicate _ _ _ _ _ _ hb]
  · intro hst hpos
    have htr : truncInt ((if f = 0 then 1 else f)⁻¹) = ⌊((if f = 0 then 1 else f))⁻¹⌋ := by
      unfold truncInt
      rw [if_pos (le_of_lt (inv_pos.mpr hpos))]
    rcases hst with hst | hst | hst <;>
      (subst hst
       rw [hrw]
       simp only [List.foldl_cons, List.foldl_nil]
       rw [processSuffix_factor _ _ _ _ hf])
    · have hb : buildEvent (['m','s'] : Str) metric v (relativeOf valueStr) labels =
          some (.timer metric v labels) := rfl
      simp [strL, emitEvents_replicate _ _ _ _ _ _ hb, htr]
    · have hb : buildEvent (['h'] : Str) metric v (relativeOf valueStr) labels =
          some (.timer metric v labels) := rfl
      simp [strL, emitEvents_replicate _ _ _ _ _ _ hb, htr]
    · have hb : buildEvent (['d'] : Str) metric v (relativeOf valueStr) labels =
          some (.timer metric v labels) := rfl
      simp [strL, emitEvents_replicate _ _ _ _ _ _ hb, htr]

theorem sampling_factor_c5_witness :
    (processSample (strL "foo") [] Stats.empty (strL "3|ms|@0.5")).2.1 =
      List.replicate 2 (Event.timer (strL "foo") 3 []) := by
  have h := (sampling_factor_c5 (strL "foo") [] Stats.empty (strL "3|ms|@0.5")
    (strL "3") (strL "ms") (strL "0.5") 3 (1/2)
    (by decide)
    (by simp [parseFloat, strL, digitsVal, isDigitChar])
    (by simp [parseFloat, strL, digitsVal, isDigitChar]; norm_num)).2.2
    (Or.inl rfl) (by norm_num)
  rw [h]
  rw [show (⌊(1 : ℚ) / (if (1/2 : ℚ) = 0 then 1 else 1/2)⌋).toNat = 2 by norm_num; decide]

theorem ifIncTags_sampleErrors (p : Prop) [Decidable p] (s : Stats) :
    (if p then s else s.incTags).sampleErrors = s.sampleErrors := by
  split_ifs <;> rfl

/-- C4 counterexample: on `foo:1|c|@xyz` the sampling factor `xyz` does
not parse; the `invalid_sample_factor` counter is incremented but the
sample is NOT dropped — one event is still emitted. -/
theorem sampling_factor_error_c4_counterexample :
    (lineToEvents (strL "foo:1|c|@xyz")).2.sampleErrors = [.invalidSampleFactor] ∧
    (lineToEvents (strL "foo:1|c|@xyz")).1.length = 1 :=
  ⟨by decide, by decide⟩

/-- C4 (amended): when the `'@f'` suffix of a sample does not parse as a
float, the `invalid_sample_factor` error counter is incremented, but the
sample is NOT dropped: Go's `ParseFloat` hands back `0`, which is clamped
to `1`, so the sample is processed as if unsampled and its event is still
emitted with the value unchanged. -/
theorem sampling_factor_error_c4 (metric : Str) (labels : Labels) (st : Stats) (sample : Str)
    (valueStr statType fStr : Str) (v : ℚ)
    (hsp : splitOn '|' sample = [valueStr, statType, '@' :: fStr])
    (hv : parseFloat valueStr = some v)
    (hf : parseFloat fStr = none) :
    (statType = strL "c" →
      (processSample metric labels st sample).2.1 = [.counter metric v labels] ∧
      (processSample metric labels st sample).2.2.sampleErrors =
        st.sampleErrors ++ [.invalidSampleFactor]) ∧
    (statType = strL "g" →
      (processSample metric labels st sample).2.1 =
        [.gauge metric v (relativeOf valueStr) labels] ∧
      (processSample metric labels st sample).2.2.sampleErrors =
        st.sampleErrors ++ [.invalidSampleFactor]) ∧
    ((statType = strL "ms" ∨ statType = strL "h" ∨ statType = strL "d") →
      (processSample metric labels st sample).2.1 = [.timer metric v labels] ∧
      (processSample metric labels st sample).2.2.sampleErrors =
        st.sampleErrors ++ [.invalidSampleFactor]) := by
  have hrw := processSample_eq metric labels st sample valueStr statType [('@' :: fStr)]
    hsp (by simp) v hv (by simp)
  have ht1 : truncInt (1 : ℚ) = 1 := by simp [truncInt]
  refine ⟨?_, ?_, ?_⟩
  · intro hst
    subst hst
    rw [hrw]
    simp only [List.foldl_cons, List.foldl_nil]
    rw [processSuffix_factor_err _ _ _ hf]
    have hb : buildEvent (['c'] : Str) metric v (relativeOf valueStr) labels =
        some (.counter metric v labels) := rfl
    simp [strL, div_one, emitEvents_replicate _ _ _ _ _ _ hb, ifIncTags_sampleErrors,
      Stats.addError, Stats.incSamples]
  · intro hst
    subst hst
    rw [hrw]
    simp only [List.foldl_cons, List.foldl_nil]
    rw [processSuffix_factor_err _ _ _ hf]
    have hb : buildEvent (['g'] : Str) metric v (relativeOf valueStr) labels =
        some (.gauge metric v (relativeOf valueStr) labels) := rfl
    simp [strL, emitEvents_replicate _ _ _ _ _ _ hb, ifIncTags_sampleErrors,
      Stats.addError, Stats.incSamples]
  · intro hst
    rcases hst with hst | hst | hst <;>
      (subst hst
       rw [hrw]
       simp only [List.foldl_cons, List.foldl_nil]
       rw [processSuffix_factor_err _ _ _ hf])
    · have hb : buildEvent (['m','s'] : Str) metric v (relativeOf valueStr) labels =
          some (.timer metric v labels) := rfl
      simp [strL, emitEvents_replicate _ _ _ _ _ _ hb, ifIncTags_sampleErrors,
        Stats.addError, Stats.incSamples, ht1]
    · have hb : buildEvent (['h'] : Str) metric v (relativeOf valueStr) labels =
          some (.timer metric v labels) := rfl
      simp [strL, emitEvents_replicate _ _ _ _ _ _ hb, ifIncTags_sampleErrors,
        Stats.addError, Stats.incSamples, ht1]
    · have hb : buildEvent (['d'] : Str) metric v (relativeOf valueStr) labels =
          some (.timer metric v labels) := rfl
      simp [strL, emitEvents_replicate _ _ _ _ _ _ hb, ifIncTags_sampleErrors,
        Stats.addError, Stats.incSamples, ht1]

theorem sampling_factor_error_c4_witness :
    (processSample (strL "foo") [] Stats.empty (strL "1|c|@xyz")).2.1 =
      [Event.counter (strL "foo") 1 []] ∧
    (processSample (strL "foo") [] Stats.empty (strL "1|c|@xyz")).2.2.sampleErrors =
      [.invalidSampleFactor] := by
  have h := (sampling_factor_error_c4 (strL "foo") [] Stats.empty (strL "1|c|@xyz")
    (strL "1") (strL "c") (strL "xyz") 1
    (by decide)
    (by simp [parseFloat, strL, digitsVal, isDigitChar])
    (by decide)).1 rfl
  exact ⟨h.1, h.2⟩

/-! ## The exporter's event dispatch (`Exporter.handleEvent`)

The mapper (`pkg/mapper`) and registry (`pkg/registry`) live outside
`exporter.go`; `handleEvent` only consumes their interfaces.  The mapper
lookup result is therefore a parameter (`none` = no match, `some`
= matched mapping plus extracted labels, mirroring
`GetMapping`'s `(mapping, labels, present)`), and the registry is
represented by its observable effects: `regActions` is the complete
ordered trace of registry mutations (`Add`/`Set`/`Observe` calls with the
metric name, labels and help text passed to the corresponding
`get*`), and the Boolean `getSucceeds` stands for whether the
`registry.get*` lookup returned without a conflict error. -/

/-- Model of `mapper.TimerType` (`""` = default, `histogram`, `summary`). -/
inductive TimerType where
  | tdefault
  | histogram
  | summary
deriving DecidableEq, Repr

/-- Model of `mapper.ActionType` (`map` or `drop`). -/
inductive ActionType where
  | actionMap
  | actionDrop
deriving DecidableEq, Repr

/-- The fields of `mapper.MetricMapping` that `handleEvent` reads. -/
structure MetricMapping where
  name : Str
  action : ActionType
  timerType : TimerType
  helpText : Str
  ttl : Nat
deriving DecidableEq, Repr

/-- The fields of `mapper.MetricMapper.Defaults` that `handleEvent` reads. -/
structure MapperDefaults where
  timerType : TimerType
  ttl : Nat
deriving DecidableEq, Repr

/-- One registry mutation performed by `handleEvent`: which accumulator of
which (escaped-name, labels, help) slot is driven, and with what value. -/
inductive RegAction where
  | counterAdd (name : Str) (labels : Labels) (help : Str) (v : ℚ)
  | gaugeAdd (name : Str) (labels : Labels) (help : Str) (v : ℚ)
  | gaugeSet (name : Str) (labels : Labels) (help : Str) (v : ℚ)
  | histogramObserve (name : Str) (labels : Labels) (help : Str) (v : ℚ)
  | summaryObserve (name : Str) (labels : Labels) (help : Str) (v : ℚ)
deriving DecidableEq, Repr

/-- The observable outcome of one `handleEvent` call: the registry
mutation trace and the counter increments (each counter is the ordered
list of label values it was incremented with). -/
structure HandleResult where
  regActions : List RegAction
  errorEventStats : List String
  eventStats : List String
  conflictingEventStats : List String
  eventsActions : List String
  eventsUnmapped : Nat
deriving DecidableEq, Repr

def HandleResult.empty : HandleResult := ⟨[], [], [], [], [], 0⟩

def actionLabel : ActionType → String
  | .actionMap => "map"
  | .actionDrop => "drop"

/-- The `defaultHelp` constant from exporter.go. -/
def defaultHelp : Str := strL "Metric autogenerated by statsd_exporter."

/-- The `mapping == nil` replacement at the top of `handleEvent`: a fresh
empty mapping whose TTL is the mapper default (Go copies `Defaults.Ttl`
only when non-zero, which is the same thing). -/
def mappingOf (dflts : MapperDefaults) (mres : Option (MetricMapping × Labels)) :
    MetricMapping :=
  match mres with
  | some p => p.1
  | none => ⟨[], .actionMap, .tdefault, [], dflts.ttl⟩

/-- Is the mapped metric name usable? (`mapping.Name == ""` after a match
is the `empty_metric_name` error.) -/
def mappedNameOk : Option (MetricMapping × Labels) → Bool
  | some p => !(p.1.name.isEmpty)
  | none => true

/-- The event-variant dispatch at the bottom of `handleEvent`. -/
def dispatchEvent (dflts : MapperDefaults) (mapping : MetricMapping) (getSucceeds : Bool)
    (metricName : Str) (prometheusLabels : Labels) (help : Str) (event : Event) :
    HandleResult :=
  match event with
  | .counter _ v _ =>
    if v < 0 then
      { HandleResult.empty with errorEventStats := ["illegal_negative_counter"] }
    else if getSucceeds then
      { HandleResult.empty with
          regActions := [.counterAdd metricName prometheusLabels help v],
          eventStats := ["counter"] }
    else
      { HandleResult.empty with conflictingEventStats := ["counter"] }
  | .gauge _ v relative _ =>
    if getSucceeds then
      { HandleResult.empty with
          regActions :=
            [if relative then .gaugeAdd metricName prometheusLabels help v
             else .gaugeSet metricName prometheusLabels help v],
          eventStats := ["gauge"] }
    else
      { HandleResult.empty with conflictingEventStats := ["gauge"] }
  | .timer _ v _ =>
    let t := if mapping.timerType = .tdefault then dflts.timerType else mapping.timerType
    match t with
    | .histogram =>
      if getSucceeds then
        { HandleResult.empty with
            regActions := [.histogramObserve metricName prometheusLabels help (v / 1000)],
            eventStats := ["timer"] }
      else
        { HandleResult.empty with conflictingEventStats := ["timer"] }
    | _ =>
      if getSucceeds then
        { HandleResult.empty with
            regActions := [.summaryObserve metricName prometheusLabels help (v / 1000)],
            eventStats := ["timer"] }
      else
        { HandleResult.empty with conflictingEventStats := ["timer"] }

/-- Model of `Exporter.handleEvent` from exporter.go: mapper lookup (given as
`mres`), drop action, help-text selection, `empty_metric_name` check,
name escaping, merging of mapper labels over event labels (mapper wins),
then the per-variant dispatch. -/
def handleEvent (dflts : MapperDefaults) (mres : Option (MetricMapping × Labels))
    (getSucceeds : Bool) (event : Event) : HandleResult :=
  let mapping := mappingOf dflts mres
  if mapping.action = .actionDrop then
    { HandleResult.empty with eventsActions := ["drop"] }
  else
    let help := if mapping.helpText = [] then defaultHelp else mapping.helpText
    match mres with
    | some (m, extraLabels) =>
      if m.name = [] then
        { HandleResult.empty with errorEventStats := ["empty_metric_name"] }
      else
        let d := dispatchEvent dflts mapping getSucceeds (escapeMetricName m.name)
          (extraLabels.foldl (fun ls kv => labelsInsert kv.1 kv.2 ls) event.labels)
          help event
        { d with eventsActions := [actionLabel m.action] }
    | none =>
      let d := dispatchEvent dflts mapping getSucceeds (escapeMetricName event.metricName)
        event.labels help event
      { d with eventsUnmapped := 1 }

/-- The claim's resolution order for the effective timer kind: the
mapping's timer type if set, else the mapper defaults' timer type (a
still-unset result is dispatched as a summary). -/
def resolveTimerType (mappingT defaultsT : TimerType) : TimerType :=
  if mappingT = .tdefault then defaultsT else mappingT

theorem handleEvent_eq_mapped (dflts : MapperDefaults) (m : MetricMapping) (extra : Labels)
    (getSucceeds : Bool) (event : Event)
    (hact : m.action = .actionMap) (hname : m.name ≠ []) :
    handleEvent dflts (some (m, extra)) getSucceeds event =
      { dispatchEvent dflts m getSucceeds (escapeMetricName m.name)
          (extra.foldl (fun ls kv => labelsInsert kv.1 kv.2 ls) event.labels)
          (if m.helpText = [] then defaultHelp else m.helpText) event with
        eventsActions := [actionLabel m.action] } := by
  simp only [handleEvent, mappingOf]
  rw [if_neg (by rw [hact]; exact fun h => ActionType.noConfusion h), if_neg hname]

theorem handleEvent_eq_unmapped (dflts : MapperDefaults) (getSucceeds : Bool) (event : Event) :
    handleEvent dflts none getSucceeds event =
      { dispatchEvent dflts (mappingOf dflts none) getSucceeds
          (escapeMetricName event.metricName) event.labels defaultHelp event with
        eventsUnmapped := 1 } := by
  simp only [handleEvent, mappingOf]
  rw [if_neg (fun h => ActionType.noConfusion h)]
  simp

theorem dispatchEvent_timer (dflts : MapperDefaults) (mapping : MetricMapping)
    (getSucceeds : Bool) (nm : Str) (pls : Labels) (hp : Str) (n : Str) (v : ℚ) (ls : Labels) :
    dispatchEvent dflts mapping getSucceeds nm pls hp (.timer n v ls) =
      (match resolveTimerType mapping.timerType dflts.timerType with
       | .histogram =>
         if getSucceeds then
           { HandleResult.empty with
               regActions := [.histogramObserve nm pls hp (v / 1000)],
               eventStats := ["timer"] }
         else
           { HandleResult.empty with conflictingEventStats := ["timer"] }
       | _ =>
         if getSucceeds then
           { HandleResult.empty with
               regActions := [.summaryObserve nm pls hp (v / 1000)],
               eventStats := ["timer"] }
         else
           { HandleResult.empty with conflictingEventStats := ["timer"] }) := by
  simp only [dispatchEvent, resolveTimerType]

/-- C8: for a Timer event that reaches the dispatch (mapping action is
`map`, mapped name non-empty) with a successful registry lookup, the
effective kind is the mapping's timer type if set, else the defaults'
timer type, else summary (`resolveTimerType`, with the unset result
dispatched as a summary); and exactly one observation of `v / 1000`
(milliseconds converted to seconds) is made on the resulting histogram or
summary. -/
theorem timer_observation_c8 (dflts : MapperDefaults)
    (mres : Option (MetricMapping × Labels)) (n : Str) (v : ℚ) (ls : Labels)
    (hact : (mappingOf dflts mres).action = .actionMap)
    (hname : mappedNameOk mres = true) :
    (resolveTimerType (mappingOf dflts mres).timerType dflts.timerType = .histogram →
      ∃ nm pls hp, (handleEvent dflts mres true (.timer n v ls)).regActions =
        [.histogramObserve nm pls hp (v / 1000)]) ∧
    (resolveTimerType (mappingOf dflts mres).timerType dflts.timerType ≠ .histogram →
      ∃ nm pls hp, (handleEvent dflts mres true (.timer n v ls)).regActions =
        [.summaryObserve nm pls hp (v / 1000)]) ∧
    (handleEvent dflts mres true (.timer n v ls)).eventStats = ["timer"] := by
  cases mres with
  | none =>
    rw [handleEvent_eq_unmapped, dispatchEvent_timer]
    refine ⟨?_, ?_, ?_⟩
    · intro hres
      rw [hres]
      exact ⟨_, _, _, rfl⟩
    · intro hres
      cases h2 : resolveTimerType (mappingOf dflts none).timerType dflts.timerType with
      | histogram => exact absurd h2 hres
      | tdefault => exact ⟨_, _, _, rfl⟩
      | summary => exact ⟨_, _, _, rfl⟩
    · cases h2 : resolveTimerType (mappingOf dflts none).timerType dflts.timerType <;>
        rfl
  | some p =>
    obtain ⟨m, extra⟩ := p
    have hname' : m.name ≠ [] := by
      simp [mappedNameOk, List.isEmpty_iff] at hname
      exact hname
    rw [handleEvent_eq_mapped dflts m extra true (.timer n v ls) hact hname',
      dispatchEvent_timer]
    refine ⟨?_, ?_, ?_⟩
    · intro hres
      rw [show resolveTimerType m.timerType dflts.timerType = .histogram from hres]
      exact ⟨_, _, _, rfl⟩
    · intro hres
      cases h2 : resolveTimerType m.timerType dflts.timerType with
      | histogram => exact absurd h2 hres
      | tdefault => exact ⟨_, _, _, rfl⟩
      | summary => exact ⟨_, _, _, rfl⟩
    · cases h2 : resolveTimerType m.timerType dflts.timerType <;> rfl

theorem timer_observation_c8_witness :
    ∃ nm pls hp,
      (handleEvent ⟨TimerType.tdefault, 0⟩ none true
        (.timer (strL "foo") 3 [])).regActions =
        [.summaryObserve nm pls hp ((3 : ℚ) / 1000)] :=
  (timer_observation_c8 ⟨TimerType.tdefault, 0⟩ none (strL "foo") 3 [] rfl rfl).2.1
    (fun h => TimerType.noConfusion h)

/-- C9: a Counter event with a negative value that reaches the dispatch is
dropped before any registry access: the registry mutation trace is empty
(no `Add`), only the `illegal_negative_counter` error counter is
incremented, and this holds whether or not the registry lookup would have
succeeded. -/
theorem negative_counter_c9 (dflts : MapperDefaults)
    (mres : Option (MetricMapping × Labels)) (getSucceeds : Bool)
    (n : Str) (v : ℚ) (ls : Labels)
    (hact : (mappingOf dflts mres).action = .actionMap)
    (hname : mappedNameOk mres = true)
    (hneg : v < 0) :
    (handleEvent dflts mres getSucceeds (.counter n v ls)).regActions = [] ∧
    (handleEvent dflts mres getSucceeds (.counter n v ls)).errorEventStats =
      ["illegal_negative_counter"] ∧
    (handleEvent dflts mres getSucceeds (.counter n v ls)).eventStats = [] ∧
    (handleEvent dflts mres getSucceeds (.counter n v ls)).conflictingEventStats = [] := by
  have hdisp : ∀ (mapping : MetricMapping) (nm : Str) (pls : Labels) (hp : Str),
      dispatchEvent dflts mapping getSucceeds nm pls hp (.counter n v ls) =
        { HandleResult.empty with errorEventStats := ["illegal_negative_counter"] } := by
    intro mapping nm pls hp
    simp only [dispatchEvent]
    rw [if_pos hneg]
  cases mres with
  | none =>
    rw [handleEvent_eq_unmapped, hdisp]
    exact ⟨rfl, rfl, rfl, rfl⟩
  | some p =>
    obtain ⟨m, extra⟩ := p
    have hname' : m.name ≠ [] := by
      simp [mappedNameOk, List.isEmpty_iff] at hname
      exact hname
    rw [handleEvent_eq_mapped dflts m extra getSucceeds (.counter n v ls) hact hname', hdisp]
    exact ⟨rfl, rfl, rfl, rfl⟩

theorem negative_counter_c9_witness :
    (handleEvent ⟨TimerType.tdefault, 0⟩ none true
      (.counter (strL "foo") (-1) [])).regActions = [] ∧
    (handleEvent ⟨TimerType.tdefault, 0⟩ none true
      (.counter (strL "foo") (-1) [])).errorEventStats = ["illegal_negative_counter"] ∧
    (handleEvent ⟨TimerType.tdefault, 0⟩ none true
      (.counter (strL "foo") (-1) [])).eventStats = [] ∧
    (handleEvent ⟨TimerType.tdefault, 0⟩ none true
      (.counter (strL "foo") (-1) [])).conflictingEventStats = [] :=
  negative_counter_c9 ⟨TimerType.tdefault, 0⟩ none true (strL "foo") (-1) [] rfl rfl
    (by norm_num)

end VaultExporter
